import Mathlib

/-!
Shallow embedding of the ElaService reconciliation controller
(`pkg/controller/elaservice/controller.go`) and of the work-queue contract it
relies on, together with theorems settling the specification claims.

External API calls (the generated clientsets) are modelled by an environment
`ClusterEnv` of response functions; each controller function is translated to
a pure Lean function returning its Go `error` result (as `Except`) together
with the list of write operations it issued against the cluster.
-/

namespace Elafros

/-- Errors distinguished by the controller via `apierrs.IsNotFound` and
`apierrs.IsAlreadyExists`; every other API error is `other`. -/
inductive ApiError
  | notFound
  | alreadyExists
  | other (msg : String)
deriving DecidableEq, Repr

/-- Translation of `apierrs.IsNotFound`. -/
def ApiError.isNotFound : ApiError → Bool
  | .notFound => true
  | _ => false

/-- Translation of `apierrs.IsAlreadyExists`. -/
def ApiError.isAlreadyExists : ApiError → Bool
  | .alreadyExists => true
  | _ => false

/-- One entry of the rollout's traffic split (`v1alpha1.TrafficTarget`):
either a direct `Revision` reference or a `RevisionTemplate` reference,
plus an integer `Percent` weight. -/
structure TrafficTarget where
  Revision : String
  RevisionTemplate : String
  Percent : Int
deriving DecidableEq, Repr

/-- The `Rollout` block of an ElaService spec: the ordered traffic list. -/
structure RolloutSpec where
  Traffic : List TrafficTarget
deriving DecidableEq, Repr

/-- The spec of the watched custom resource. -/
structure ElaServiceSpec where
  Rollout : RolloutSpec
deriving DecidableEq, Repr

/-- The watched custom resource (`v1alpha1.ElaService`), restricted to the
fields the controller reads. -/
structure ElaService where
  Name : String
  Namespace : String
  Spec : ElaServiceSpec
deriving DecidableEq, Repr

/-- Status of a revision template: the `Latest` resolved revision name. -/
structure RevisionTemplateStatus where
  Latest : String
deriving DecidableEq, Repr

/-- A revision template object (`rt` in `getRouteForTrafficTarget`). -/
structure RevisionTemplate where
  Status : RevisionTemplateStatus
deriving DecidableEq, Repr

/-- Status of a revision: the backing `ServiceName`. -/
structure RevisionStatus where
  ServiceName : String
deriving DecidableEq, Repr

/-- A revision object (`rev` in `getRouteForTrafficTarget`). -/
structure Revision where
  Status : RevisionStatus
deriving DecidableEq, Repr

/-- `RevisionRoute` from controller.go: a single target to route to, the k8s
service for a specific revision and how much traffic goes to it. -/
structure RevisionRoute where
  Service : String
  Weight : Int
deriving DecidableEq, Repr

/-- The placeholder k8s Service object, restricted to the fields the
controller touches (its name and the owner references it appends to). -/
structure K8SService where
  Name : String
  OwnerReferences : List String
deriving DecidableEq, Repr

/-- The ingress object, restricted to the fields the controller touches. -/
structure Ingress where
  Name : String
  OwnerReferences : List String
deriving DecidableEq, Repr

/-- An istio route-rule object: its `Spec` (the only field the controller
rewrites) and `Metadata`, standing for every other field of the fetched
object, which the controller leaves as fetched. -/
structure RouteRule where
  Metadata : String
  Spec : String
deriving DecidableEq, Repr

/-- Write operations the controller can issue against the dependent-resource
APIs. The API surface per kind is get/create/update (spec section 6); delete
constructors are included in the vocabulary so that claims about deletion are
expressible, and `recordEvent` models `recorder.Event`. -/
inductive Effect
  | createService (ns : String) (svc : K8SService)
  | updateService (ns : String) (svc : K8SService)
  | deleteService (ns name : String)
  | createIngress (ns : String) (ing : Ingress)
  | updateIngress (ns : String) (ing : Ingress)
  | deleteIngress (ns name : String)
  | createRouteRule (ns : String) (rr : RouteRule)
  | updateRouteRule (ns : String) (rr : RouteRule)
  | deleteRouteRule (ns name : String)
  | recordEvent (reason message : String)
deriving DecidableEq, Repr

/-- True for the three delete operations (never issued by this controller). -/
def Effect.isDeleteOp : Effect → Bool
  | .deleteService _ _ => true
  | .deleteIngress _ _ => true
  | .deleteRouteRule _ _ => true
  | _ => false

/-- True for an in-place update of the placeholder service or the ingress
(never issued by this controller). -/
def Effect.isServiceOrIngressUpdate : Effect → Bool
  | .updateService _ _ => true
  | .updateIngress _ _ => true
  | _ => false

/-- True for any write addressed to the ingress resource. -/
def Effect.isIngressWrite : Effect → Bool
  | .createIngress _ _ => true
  | .updateIngress _ _ => true
  | .deleteIngress _ _ => true
  | _ => false

/-- Environment of external collaborators: responses of the kubernetes /
elafros API clients, plus the helper constructors from `pkg/controller/util`
and the `MakeElaService*` builders, which are repository code outside the
provided sources and are therefore kept abstract (the claims do not depend
on their output beyond the structure proved here). -/
structure ClusterEnv where
  /-- Response function of `util.GetElaNamespaceName`. -/
  elaNamespaceName : String → String
  /-- Response of `RevisionTemplates(ns).Get(name)`. -/
  getRevisionTemplate : String → String → Except ApiError RevisionTemplate
  /-- Response of `Revisions(ns).Get(name)`. -/
  getRevision : String → String → Except ApiError Revision
  /-- Response of `lister.ElaServices(ns).Get(name)`. -/
  getElaService : String → String → Except ApiError ElaService
  /-- Response of `Services(ns).Create(svc)`. -/
  createService : String → K8SService → Except ApiError Unit
  /-- Response of `Ingresses(ns).Get(name)` (object itself unused). -/
  getIngress : String → String → Except ApiError Unit
  /-- Response of `Ingresses(ns).Create(ing)`. -/
  createIngress : String → Ingress → Except ApiError Unit
  /-- Response of `RouteRules(ns).Get(name)`. -/
  getRouteRule : String → String → Except ApiError RouteRule
  /-- Response of `RouteRules(ns).Create(rr)`. -/
  createRouteRule : String → RouteRule → Except ApiError Unit
  /-- Response of `RouteRules(ns).Update(rr)`. -/
  updateRouteRule : String → RouteRule → Except ApiError Unit
  /-- Whether `ConfigV1alpha2().RouteRules(ns)` is nil (dead-code check in
  `createOrUpdateRoutes`, kept for fidelity). -/
  routeRulesClientIsNil : Bool
  /-- `MakeElaServiceK8SService` (outside src, abstract). -/
  MakeElaServiceK8SService : ElaService → K8SService
  /-- `MakeElaServiceIngress` (outside src, abstract). -/
  MakeElaServiceIngress : ElaService → String → Ingress
  /-- `MakeElaServiceIstioRoutes` (outside src, abstract). -/
  MakeElaServiceIstioRoutes : ElaService → String → List RevisionRoute → RouteRule
  /-- `MakeElaServiceIstioSpec` (outside src, abstract). -/
  MakeElaServiceIstioSpec : ElaService → String → List RevisionRoute → String
  /-- `util.GetElaK8SIngressName` (outside src, abstract). -/
  GetElaK8SIngressName : ElaService → String
  /-- `util.GetElaIstioRouteRuleName` (outside src, abstract). -/
  GetElaIstioRouteRuleName : ElaService → String
  /-- `metav1.NewControllerRef` applied to the resource (abstract). -/
  NewControllerRef : ElaService → String

/-- Event reason constant from controller.go. -/
def SuccessSynced : String := "Synced"

/-- Event message constant from controller.go. -/
def MessageResourceSynced : String := "ElaService synced successfully"

/-- Revision-name resolution inside `getRouteForTrafficTarget`: if a template
is specified, fetch it and take its latest revision, otherwise use the
`Revision` field directly. -/
def resolveRevisionName (c : ClusterEnv) (tt : TrafficTarget) (ns : String) :
    Except ApiError String :=
  if tt.RevisionTemplate ≠ "" then
    match c.getRevisionTemplate ns tt.RevisionTemplate with
    | .error e => .error e
    | .ok rt => .ok rt.Status.Latest
  else .ok tt.Revision

/-- Translation of `getRouteForTrafficTarget`: resolve the revision name,
fetch the revision, and build the route `<ServiceName>.<elaNS>` with weight
`tt.Percent`. -/
def getRouteForTrafficTarget (c : ClusterEnv) (tt : TrafficTarget) (ns : String) :
    Except ApiError RevisionRoute :=
  let elaNS := c.elaNamespaceName ns
  match resolveRevisionName c tt ns with
  | .error e => .error e
  | .ok revisionName =>
    match c.getRevision ns revisionName with
    | .error e => .error e
    | .ok rev =>
      .ok { Service := rev.Status.ServiceName ++ "." ++ elaNS, Weight := tt.Percent }

/-- The loop body of `getRoutes` over the traffic list: the first failing
target aborts with its error, otherwise routes are collected in order. -/
def getRoutesList (c : ClusterEnv) (ns : String) :
    List TrafficTarget → Except ApiError (List RevisionRoute)
  | [] => .ok []
  | tt :: rest =>
    match getRouteForTrafficTarget c tt ns with
    | .error e => .error e
    | .ok rr =>
      match getRoutesList c ns rest with
      | .error e => .error e
      | .ok rs => .ok (rr :: rs)

/-- Translation of `getRoutes`: resolve every traffic target of the rollout
spec against the resource's namespace. -/
def getRoutes (c : ClusterEnv) (u : ElaService) : Except ApiError (List RevisionRoute) :=
  getRoutesList c u.Namespace u.Spec.Rollout.Traffic

/-- The placeholder service object as built by `createPlaceholderService`:
`MakeElaServiceK8SService(u)` with the controller owner reference appended. -/
def placeholderServiceFor (c : ClusterEnv) (u : ElaService) : K8SService :=
  let service := c.MakeElaServiceK8SService u
  { service with OwnerReferences := service.OwnerReferences ++ [c.NewControllerRef u] }

/-- Translation of `createPlaceholderService`: always attempts the create;
an already-exists response is swallowed (returns nil), any other create
error is returned. -/
def createPlaceholderService (c : ClusterEnv) (u : ElaService) (ns : String) :
    Except ApiError Unit × List Effect :=
  let service := placeholderServiceFor c u
  match c.createService ns service with
  | .error e =>
    if e.isAlreadyExists then (.ok (), [Effect.createService ns service])
    else (.error e, [Effect.createService ns service])
  | .ok _ => (.ok (), [Effect.createService ns service])

/-- The ingress object as built by `createOrUpdateIngress`:
`MakeElaServiceIngress(es, ns)` with the controller owner reference appended. -/
def ingressFor (c : ClusterEnv) (es : ElaService) (ns : String) : Ingress :=
  let ingress := c.MakeElaServiceIngress es ns
  { ingress with OwnerReferences := ingress.OwnerReferences ++ [c.NewControllerRef es] }

/-- Translation of `createOrUpdateIngress`: a Get decides between doing
nothing (found) and creating (not found); a Get error other than not-found
is returned, and the create result is returned as-is. Despite the name, no
update is ever issued. -/
def createOrUpdateIngress (c : ClusterEnv) (es : ElaService) (ns : String) :
    Except ApiError Unit × List Effect :=
  let ingressName := c.GetElaK8SIngressName es
  let ingress := ingressFor c es ns
  match c.getIngress ns ingressName with
  | .error e =>
    if e.isNotFound then
      match c.createIngress ns ingress with
      | .error ce => (.error ce, [Effect.createIngress ns ingress])
      | .ok _ => (.ok (), [Effect.createIngress ns ingress])
    else (.error e, [])
  | .ok _ => (.ok (), [])

/-- Translation of `createOrUpdateRoutes`: nil-client check, route
resolution (aborting on error), the empty-routes early success, then either
create from scratch (route rule not found) or update the fetched object with
its `Spec` replaced by the freshly computed one. -/
def createOrUpdateRoutes (c : ClusterEnv) (u : ElaService) (ns : String) :
    Except ApiError Unit × List Effect :=
  if c.routeRulesClientIsNil then (.error (.other "Couldn't get a routeClient"), [])
  else
    match getRoutes c u with
    | .error e => (.error e, [])
    | .ok routes =>
      if routes.length = 0 then (.ok (), [])
      else
        let routeRuleName := c.GetElaIstioRouteRuleName u
        match c.getRouteRule ns routeRuleName with
        | .error e =>
          if e.isNotFound then
            let routeRules := c.MakeElaServiceIstioRoutes u ns routes
            match c.createRouteRule ns routeRules with
            | .error ce => (.error ce, [Effect.createRouteRule ns routeRules])
            | .ok _ => (.ok (), [Effect.createRouteRule ns routeRules])
          else (.error e, [])
        | .ok routeRules =>
          let routeRules := { routeRules with Spec := c.MakeElaServiceIstioSpec u ns routes }
          match c.updateRouteRule ns routeRules with
          | .error e => (.error e, [Effect.updateRouteRule ns routeRules])
          | .ok _ => (.ok (), [Effect.updateRouteRule ns routeRules])

/-- Splitting a character list at every slash, keeping empty segments
(the behavior of splitting `namespace/name` keys on the separator). -/
def splitSlash : List Char → List (List Char)
  | [] => [[]]
  | c :: rest =>
    match splitSlash rest with
    | [] => [[c]]
    | cur :: parts => if c = '/' then [] :: cur :: parts else (c :: cur) :: parts

/-- Modelled from the spec: `cache.SplitMetaNamespaceKey` (vendored
client-go code, not under src/) splits a composite key `namespace/name`;
a key without a slash is a cluster-scoped name with empty namespace, and
any other shape is malformed. -/
def splitMetaNamespaceKey (key : String) : Except Unit (String × String) :=
  match (splitSlash key.toList).map (fun l => String.mk l) with
  | [name] => .ok ("", name)
  | [ns, name] => .ok (ns, name)
  | _ => .error ()

/-- Tail of `syncHandler` after the placeholder-service and ingress steps:
run `createOrUpdateRoutes`, return its error if any, otherwise record the
success event and return nil. -/
def syncRoutesStep (c : ClusterEnv) (es : ElaService) (ns : String) (acc : List Effect) :
    Except ApiError Unit × List Effect :=
  let s3 := createOrUpdateRoutes c es ns
  match s3.1 with
  | .error e => (.error e, acc ++ s3.2)
  | .ok _ =>
    (.ok (), acc ++ s3.2 ++ [Effect.recordEvent SuccessSynced MessageResourceSynced])

/-- Translation of `syncHandler`: split the key (malformed keys are logged
and dropped with nil error), fetch the resource (not-found is logged and
dropped with nil error, other errors returned), then the three sub-resource
steps, tolerating an already-exists error from the ingress step. -/
def syncHandler (c : ClusterEnv) (key : String) : Except ApiError Unit × List Effect :=
  match splitMetaNamespaceKey key with
  | .error _ => (.ok (), [])
  | .ok (ns, name) =>
    match c.getElaService ns name with
    | .error e => if e.isNotFound then (.ok (), []) else (.error e, [])
    | .ok es =>
      let s1 := createPlaceholderService c es ns
      match s1.1 with
      | .error e => (.error e, s1.2)
      | .ok _ =>
        let s2 := createOrUpdateIngress c es ns
        match s2.1 with
        | .error e =>
          if e.isAlreadyExists then syncRoutesStep c es ns (s1.2 ++ s2.2)
          else (.error e, s1.2 ++ s2.2)
        | .ok _ => syncRoutesStep c es ns (s1.2 ++ s2.2)

/-- An item taken off the workqueue: the expected `namespace/name` string,
or a value of any other type (the `obj.(string)` type assertion). -/
inductive QItem
  | str (s : String)
  | nonString
deriving DecidableEq, Repr

/-- Calls `processNextWorkItem` makes back into the workqueue, in call
order (the deferred `Done` runs last). -/
inductive QueueOp
  | Done (obj : QItem)
  | Forget (obj : QItem)
  | AddRateLimited (obj : QItem)
deriving DecidableEq, Repr

/-- Translation of `processNextWorkItem`, given the result of
`workqueue.Get()` as inputs: on shutdown return false; a non-string item is
Forgotten and Done; otherwise the sync handler runs and on success the item
is Forgotten — on failure the error is only handed to `HandleError` and the
item is marked Done with no re-enqueue call of any kind. Returns the Go
boolean, the queue calls made, and the sync handler's cluster effects. -/
def processNextWorkItem (c : ClusterEnv) (obj : QItem) (shutdown : Bool) :
    Bool × List QueueOp × List Effect :=
  if shutdown then (false, [], [])
  else
    match obj with
    | QItem.nonString => (true, [QueueOp.Forget obj, QueueOp.Done obj], [])
    | QItem.str key =>
      match (syncHandler c key).1 with
      | .error _ => (true, [QueueOp.Done obj], (syncHandler c key).2)
      | .ok _ => (true, [QueueOp.Forget obj, QueueOp.Done obj], (syncHandler c key).2)

/-- Modelled from the spec: the rate-limited work queue
(`k8s.io/client-go/util/workqueue`, vendored code not under src/). Spec
section 4.1: a deduplicating queue of keys; `dirty` is the set of keys
needing processing, `processing` the in-flight keys, and `queue` the
delivery order. A key added again while already in flight is deferred and
re-delivered after the current attempt completes. -/
structure WorkQueue where
  queue : List String
  dirty : List String
  processing : List String
deriving DecidableEq, Repr

/-- The initial, empty work queue. -/
def WorkQueue.empty : WorkQueue := ⟨[], [], []⟩

/-- Modelled from the spec: `Add(key)` deduplicates in-flight and pending
duplicates — a key already marked dirty is dropped; a dirty but in-flight
key is recorded for re-delivery without touching the delivery order; any
other key is appended for delivery. -/
def WorkQueue.add (q : WorkQueue) (k : String) : WorkQueue :=
  if k ∈ q.dirty then q
  else if k ∈ q.processing then { q with dirty := q.dirty ++ [k] }
  else { q with dirty := q.dirty ++ [k], queue := q.queue ++ [k] }

/-- Modelled from the spec: `Get()` delivers the head of the queue, marks it
in flight and clears its dirty mark; `none` stands for an empty queue (a
real worker blocks, or observes shutdown). -/
def WorkQueue.getItem (q : WorkQueue) : Option (WorkQueue × String) :=
  match q.queue with
  | [] => none
  | k :: rest =>
    some ({ queue := rest, dirty := q.dirty.erase k, processing := q.processing ++ [k] }, k)

/-- Modelled from the spec: `Done(item)` marks processing complete; a key
re-added while it was in flight (still dirty) is re-delivered now, exactly
once. -/
def WorkQueue.done (q : WorkQueue) (k : String) : WorkQueue :=
  if k ∈ q.dirty then
    { q with processing := q.processing.erase k, queue := q.queue ++ [k] }
  else { q with processing := q.processing.erase k }

/-- One permitted interaction with the work queue; `Done` is only ever
called by the worker holding the key (after its `Get`). -/
inductive WorkQueue.Step : WorkQueue → WorkQueue → Prop
  | add (q : WorkQueue) (k : String) : WorkQueue.Step q (q.add k)
  | getItem (q q' : WorkQueue) (k : String) (h : q.getItem = some (q', k)) :
      WorkQueue.Step q q'
  | done (q : WorkQueue) (k : String) (h : k ∈ q.processing) :
      WorkQueue.Step q (q.done k)

/-- States the queue can reach from empty through permitted interactions. -/
def WorkQueue.Reachable (q : WorkQueue) : Prop :=
  Relation.ReflTransGen WorkQueue.Step WorkQueue.empty q

/-- Structural invariant of the work queue: no duplicate pending delivery,
no key in flight twice, pending and in-flight keys disjoint, and every
pending key is marked dirty. -/
structure WorkQueue.Inv (q : WorkQueue) : Prop where
  queue_nodup : q.queue.Nodup
  processing_nodup : q.processing.Nodup
  disjoint : ∀ k ∈ q.queue, k ∉ q.processing
  queue_dirty : ∀ k ∈ q.queue, k ∈ q.dirty

/-- Neutral concrete environment used to instantiate witnesses: every read
misses, every write succeeds, and the abstract name builders are given
simple deterministic values. -/
def baseEnv : ClusterEnv where
  elaNamespaceName := fun ns => ns
  getRevisionTemplate := fun _ _ => .error .notFound
  getRevision := fun _ _ => .error .notFound
  getElaService := fun _ _ => .error .notFound
  createService := fun _ _ => .ok ()
  getIngress := fun _ _ => .error .notFound
  createIngress := fun _ _ => .ok ()
  getRouteRule := fun _ _ => .error .notFound
  createRouteRule := fun _ _ => .ok ()
  updateRouteRule := fun _ _ => .ok ()
  routeRulesClientIsNil := false
  MakeElaServiceK8SService := fun u => ⟨u.Name ++ "-service", []⟩
  MakeElaServiceIngress := fun u _ => ⟨u.Name ++ "-ela-ingress", []⟩
  MakeElaServiceIstioRoutes := fun u _ _ => ⟨u.Name ++ "-istio", "fresh-spec"⟩
  MakeElaServiceIstioSpec := fun _ _ _ => "fresh-spec"
  GetElaK8SIngressName := fun u => u.Name ++ "-ela-ingress"
  GetElaIstioRouteRuleName := fun u => u.Name ++ "-istio"
  NewControllerRef := fun u => u.Name

/-- The scenario resource `svc-a` of the spec: two direct revision targets
at 90/10. -/
def svcA : ElaService :=
  { Name := "svc-a", Namespace := "default",
    Spec := { Rollout := { Traffic := [⟨"rev-1", "", 90⟩, ⟨"rev-2", "", 10⟩] } } }

/-- Scenario environment: `svc-a` exists, both revisions resolve, all three
sub-resources already exist (placeholder create is answered already-exists),
and the existing route rule carries an old spec. -/
def scnEnv : ClusterEnv :=
  { baseEnv with
    getElaService := fun ns name =>
      if ns = "default" ∧ name = "svc-a" then .ok svcA else .error .notFound
    getRevision := fun _ name =>
      if name = "rev-1" then .ok ⟨⟨"rev-1-svc"⟩⟩
      else if name = "rev-2" then .ok ⟨⟨"rev-2-svc"⟩⟩
      else .error .notFound
    createService := fun _ _ => .error .alreadyExists
    getIngress := fun _ _ => .ok ()
    getRouteRule := fun _ _ => .ok ⟨"meta0", "old-spec"⟩ }

/-- Environment whose ElaService lookup fails with a transient error. -/
def transientLookupEnv : ClusterEnv :=
  { baseEnv with getElaService := fun _ _ => .error (.other "boom") }

/-- Scenario environment in which the fetch of revision rev-2 fails while
rev-1 still resolves. -/
def partialRevEnv : ClusterEnv :=
  { scnEnv with
    getRevision := fun _ name =>
      if name = "rev-1" then .ok ⟨⟨"rev-1-svc"⟩⟩ else .error (.other "boom") }

/-- Scenario environment in which the ingress is missing and its creation
races with another writer (already-exists). -/
def ingressRaceEnv : ClusterEnv :=
  { scnEnv with
    getIngress := fun _ _ => .error .notFound
    createIngress := fun _ _ => .error .alreadyExists }

/-- Scenario environment in which the placeholder-service create fails with
a transient error. -/
def svcCreateFailEnv : ClusterEnv :=
  { scnEnv with createService := fun _ _ => .error (.other "boom") }

/-- Scenario environment in which the ingress create fails with a transient
error. -/
def ingressCreateFailEnv : ClusterEnv :=
  { ingressRaceEnv with createIngress := fun _ _ => .error (.other "boom") }

/-- Scenario environment in which the target references a revision
template `tpl-1` whose latest resolved revision is rev-1. -/
def tplEnv : ClusterEnv :=
  { scnEnv with
    getRevisionTemplate := fun _ name =>
      if name = "tpl-1" then .ok ⟨⟨"rev-1"⟩⟩ else .error .notFound }

/-- A reachable queue state with the key a in flight: the head of the queue
was handed to a worker that has not yet called Done. -/
def q0 : WorkQueue := ⟨[], [], ["a"]⟩

theorem WorkQueue.inv_empty : WorkQueue.empty.Inv := by
  constructor <;> simp [WorkQueue.empty]

theorem WorkQueue.Inv.add {q : WorkQueue} (hq : q.Inv) (k : String) : (q.add k).Inv := by
  unfold WorkQueue.add
  split
  · exact hq
  · next hd =>
    split
    · next hp =>
      exact ⟨hq.queue_nodup, hq.processing_nodup, hq.disjoint,
        fun j hj => List.mem_append_left _ (hq.queue_dirty j hj)⟩
    · next hp =>
      refine ⟨?_, hq.processing_nodup, ?_, ?_⟩
      · refine List.Nodup.append hq.queue_nodup (List.nodup_singleton k) ?_
        intro a ha hb
        rw [List.mem_singleton] at hb
        subst hb
        exact hd (hq.queue_dirty a ha)
      · intro j hj
        rcases List.mem_append.mp hj with h1 | h1
        · exact hq.disjoint j h1
        · rw [List.mem_singleton] at h1
          rw [h1]
          exact hp
      · intro j hj
        rcases List.mem_append.mp hj with h1 | h1
        · exact List.mem_append_left _ (hq.queue_dirty j h1)
        · rw [List.mem_singleton] at h1
          rw [h1]
          exact List.mem_append_right _ (List.mem_singleton_self k)

theorem WorkQueue.Inv.getItem {q q' : WorkQueue} {k : String} (hq : q.Inv)
    (h : q.getItem = some (q', k)) : q'.Inv := by
  unfold WorkQueue.getItem at h
  split at h
  · exact absurd h (by simp)
  · next k0 rest heq =>
    injection h with h1
    injection h1 with hq' hk
    subst hq'
    subst hk
    have hknodup : (k0 :: rest).Nodup := heq ▸ hq.queue_nodup
    have hk0mem : k0 ∈ q.queue := heq ▸ List.mem_cons_self k0 rest
    have hne : ∀ j ∈ rest, j ≠ k0 := by
      intro j hj heq
      subst heq
      exact (List.nodup_cons.mp hknodup).1 hj
    refine ⟨hknodup.of_cons, ?_, ?_, ?_⟩
    · refine List.Nodup.append hq.processing_nodup (List.nodup_singleton k0) ?_
      intro a ha hb
      rw [List.mem_singleton] at hb
      subst hb
      exact hq.disjoint a hk0mem ha
    · intro j hj
      have hjq : j ∈ q.queue := heq ▸ List.mem_cons_of_mem k0 hj
      intro hmem
      rcases List.mem_append.mp hmem with h1 | h1
      · exact hq.disjoint j hjq h1
      · rw [List.mem_singleton] at h1
        exact hne j hj h1
    · intro j hj
      have hjq : j ∈ q.queue := heq ▸ List.mem_cons_of_mem k0 hj
      exact (List.mem_erase_of_ne (hne j hj)).mpr (hq.queue_dirty j hjq)

theorem WorkQueue.Inv.done {q : WorkQueue} {k : String} (hq : q.Inv)
    (h : k ∈ q.processing) : (q.done k).Inv := by
  unfold WorkQueue.done
  have hpe : (q.processing.erase k).Nodup := hq.processing_nodup.erase k
  split
  · next hd =>
    refine ⟨?_, hpe, ?_, ?_⟩
    · refine List.Nodup.append hq.queue_nodup (List.nodup_singleton k) ?_
      intro a ha hb
      rw [List.mem_singleton] at hb
      subst hb
      exact hq.disjoint a ha h
    · intro j hj
      rcases List.mem_append.mp hj with h1 | h1
      · intro hmem
        exact hq.disjoint j h1 (List.mem_of_mem_erase hmem)
      · rw [List.mem_singleton] at h1
        subst h1
        intro hmem
        exact ((hq.processing_nodup.mem_erase_iff).mp hmem).1 rfl
    · intro j hj
      rcases List.mem_append.mp hj with h1 | h1
      · exact hq.queue_dirty j h1
      · rw [List.mem_singleton] at h1
        subst h1
        exact hd
  · next hd =>
    exact ⟨hq.queue_nodup, hpe,
      fun j hj hmem => hq.disjoint j hj (List.mem_of_mem_erase hmem),
      hq.queue_dirty⟩

theorem WorkQueue.Inv.step {q q' : WorkQueue} (hq : q.Inv) (h : WorkQueue.Step q q') :
    q'.Inv := by
  cases h with
  | add k => exact hq.add k
  | getItem p k hg => exact hq.getItem hg
  | done k hk => exact hq.done hk

theorem WorkQueue.inv_of_reachable {q : WorkQueue} (h : q.Reachable) : q.Inv := by
  unfold WorkQueue.Reachable at h
  induction h with
  | refl => exact WorkQueue.inv_empty
  | tail _ hstep ih => exact ih.step hstep

theorem getRouteForTrafficTarget_ok {c : ClusterEnv} {tt : TrafficTarget} {ns : String}
    {rr : RevisionRoute} (h : getRouteForTrafficTarget c tt ns = .ok rr) :
    rr.Weight = tt.Percent ∧
    ∃ revisionName rev, resolveRevisionName c tt ns = .ok revisionName ∧
      c.getRevision ns revisionName = .ok rev ∧
      rr.Service = rev.Status.ServiceName ++ "." ++ c.elaNamespaceName ns := by
  unfold getRouteForTrafficTarget at h
  split at h
  · exact absurd h (by simp)
  · next revisionName hres =>
    split at h
    · exact absurd h (by simp)
    · next rev hrev =>
      injection h with h1
      subst h1
      exact ⟨rfl, revisionName, rev, hres, hrev, rfl⟩

theorem getRoutesList_ok {c : ClusterEnv} {ns : String} :
    ∀ {l : List TrafficTarget} {rs : List RevisionRoute},
      getRoutesList c ns l = .ok rs →
      rs.length = l.length ∧
      ∀ i (hi : i < rs.length) (ht : i < l.length),
        getRouteForTrafficTarget c (l.get ⟨i, ht⟩) ns = .ok (rs.get ⟨i, hi⟩)
  | [], rs, h => by
    unfold getRoutesList at h
    injection h with h1
    subst h1
    exact ⟨rfl, fun i hi _ => absurd hi (by simp)⟩
  | tt :: rest, rs, h => by
    unfold getRoutesList at h
    cases hhd : getRouteForTrafficTarget c tt ns with
    | error e =>
      rw [hhd] at h
      exact absurd h (by simp)
    | ok rr =>
      rw [hhd] at h
      cases htl : getRoutesList c ns rest with
      | error e =>
        rw [htl] at h
        exact absurd h (by simp)
      | ok rs2 =>
        rw [htl] at h
        injection h with h1
        subst h1
        obtain ⟨hlen, hidx⟩ := getRoutesList_ok htl
        refine ⟨by simp [hlen], ?_⟩
        intro i hi ht
        cases i with
        | zero => exact hhd
        | succ n => exact hidx n (by simpa using hi) (by simpa using ht)

theorem getRoutesList_error {c : ClusterEnv} {ns : String} {tt : TrafficTarget}
    {e0 : ApiError} :
    ∀ {l : List TrafficTarget}, tt ∈ l →
      getRouteForTrafficTarget c tt ns = .error e0 →
      ∃ e, getRoutesList c ns l = .error e
  | [], hmem, _ => absurd hmem (by simp)
  | hd :: rest, hmem, herr => by
    unfold getRoutesList
    cases hhd : getRouteForTrafficTarget c hd ns with
    | error e => exact ⟨e, rfl⟩
    | ok rr =>
      have hrest : tt ∈ rest := by
        rcases List.mem_cons.mp hmem with h1 | h1
        · rw [h1] at herr
          rw [herr] at hhd
          exact absurd hhd (by simp)
        · exact h1
      obtain ⟨e, he⟩ := getRoutesList_error hrest herr
      rw [he]
      exact ⟨e, rfl⟩

/-- C3: when every traffic target of the rollout spec resolves, `getRoutes`
returns exactly one route per target, in the same order, whose `Weight` is
the target's `Percent` carried through unchanged and whose `Service` is the
resolved revision's `ServiceName` composed with the namespace-scoped suffix
as `<service-name>.<suffix>`. -/
theorem C3_getRoutes_weights_and_services (c : ClusterEnv) (u : ElaService)
    (routes : List RevisionRoute) (h : getRoutes c u = .ok routes) :
    routes.length = u.Spec.Rollout.Traffic.length ∧
    ∀ i (hi : i < routes.length) (ht : i < u.Spec.Rollout.Traffic.length),
      getRouteForTrafficTarget c (u.Spec.Rollout.Traffic.get ⟨i, ht⟩) u.Namespace =
        .ok (routes.get ⟨i, hi⟩) ∧
      (routes.get ⟨i, hi⟩).Weight = (u.Spec.Rollout.Traffic.get ⟨i, ht⟩).Percent ∧
      ∃ revisionName rev,
        resolveRevisionName c (u.Spec.Rollout.Traffic.get ⟨i, ht⟩) u.Namespace =
          .ok revisionName ∧
        c.getRevision u.Namespace revisionName = .ok rev ∧
        (routes.get ⟨i, hi⟩).Service =
          rev.Status.ServiceName ++ "." ++ c.elaNamespaceName u.Namespace := by
  obtain ⟨hlen, hidx⟩ :=
    getRoutesList_ok
      (show getRoutesList c u.Namespace u.Spec.Rollout.Traffic = .ok routes from h)
  refine ⟨hlen, fun i hi ht => ?_⟩
  have hok := hidx i hi ht
  obtain ⟨hw, revisionName, rev, hres, hrev, hserv⟩ := getRouteForTrafficTarget_ok hok
  exact ⟨hok, hw, revisionName, rev, hres, hrev, hserv⟩

/-- C3 witness: the spec's scenario (`svc-a`, targets rev-1 at 90 and rev-2
at 10, service names rev-1-svc and rev-2-svc) yields exactly the claimed
routes, and the theorem applies to it. -/
theorem C3_witness :
    getRoutes scnEnv svcA =
      .ok [⟨"rev-1-svc.default", 90⟩, ⟨"rev-2-svc.default", 10⟩] ∧
    ([(⟨"rev-1-svc.default", 90⟩ : RevisionRoute), ⟨"rev-2-svc.default", 10⟩]).length =
      svcA.Spec.Rollout.Traffic.length :=
  ⟨rfl, (C3_getRoutes_weights_and_services scnEnv svcA
    [⟨"rev-1-svc.default", 90⟩, ⟨"rev-2-svc.default", 10⟩] rfl).1⟩

/-- C4: if resolving any single traffic target fails, route resolution
returns an error for the entire set (no partial route list), the
route-rule step fails without writing anything, and — when the earlier sync
steps succeed — the whole sync returns the failure to the worker. -/
theorem C4_single_target_failure_aborts (c : ClusterEnv) (u : ElaService)
    (tt : TrafficTarget) (e0 : ApiError)
    (hmem : tt ∈ u.Spec.Rollout.Traffic)
    (herr : getRouteForTrafficTarget c tt u.Namespace = .error e0) :
    (∃ e, getRoutes c u = .error e) ∧
    (∀ rs, getRoutes c u ≠ .ok rs) ∧
    (∀ ns, ∃ e, (createOrUpdateRoutes c u ns).1 = .error e) ∧
    (∀ ns, (createOrUpdateRoutes c u ns).2 = []) ∧
    (∀ key ns name, splitMetaNamespaceKey key = .ok (ns, name) →
      c.getElaService ns name = .ok u →
      (createPlaceholderService c u ns).1 = .ok () →
      (createOrUpdateIngress c u ns).1 = .ok () →
      ∃ e, (syncHandler c key).1 = .error e) := by
  obtain ⟨e, he⟩ :=
    getRoutesList_error hmem herr
  have hroutes : getRoutes c u = .error e := he
  have hcur : ∀ ns, createOrUpdateRoutes c u ns =
      if c.routeRulesClientIsNil then (.error (.other "Couldn't get a routeClient"), [])
      else (.error e, []) := by
    intro ns
    unfold createOrUpdateRoutes
    by_cases hnil : c.routeRulesClientIsNil
    · rw [if_pos hnil, if_pos hnil]
    · rw [if_neg hnil, if_neg hnil, hroutes]
  refine ⟨⟨e, hroutes⟩, ?_, ?_, ?_, ?_⟩
  · intro rs hrs
    rw [hroutes] at hrs
    exact absurd hrs (by simp)
  · intro ns
    rw [hcur ns]
    by_cases hnil : c.routeRulesClientIsNil
    · rw [if_pos hnil]
      exact ⟨.other "Couldn't get a routeClient", rfl⟩
    · rw [if_neg hnil]
      exact ⟨e, rfl⟩
  · intro ns
    rw [hcur ns]
    by_cases hnil : c.routeRulesClientIsNil
    · rw [if_pos hnil]
    · rw [if_neg hnil]
  · intro key ns name hsplit hes hps hing
    have hsync : syncHandler c key = syncRoutesStep c u ns
        ((createPlaceholderService c u ns).2 ++ (createOrUpdateIngress c u ns).2) := by
      unfold syncHandler
      simp only [hsplit, hes, hps, hing]
    rw [hsync]
    unfold syncRoutesStep
    rw [hcur ns]
    by_cases hnil : c.routeRulesClientIsNil
    · rw [if_pos hnil]
      exact ⟨.other "Couldn't get a routeClient", rfl⟩
    · rw [if_neg hnil]
      exact ⟨e, rfl⟩

/-- C10: for a traffic target with both `Revision` and `RevisionTemplate`
non-empty, resolution takes the template path — the revision name is the
template's `Status.Latest` and the `Revision` field is ignored entirely. -/
theorem C10_template_overrides_revision (c : ClusterEnv) (tt : TrafficTarget)
    (ns : String) (rt : RevisionTemplate)
    (_hrev : tt.Revision ≠ "") (htpl : tt.RevisionTemplate ≠ "")
    (hget : c.getRevisionTemplate ns tt.RevisionTemplate = .ok rt) :
    resolveRevisionName c tt ns = .ok rt.Status.Latest ∧
    (getRouteForTrafficTarget c tt ns =
      match c.getRevision ns rt.Status.Latest with
      | .error e => .error e
      | .ok rev =>
        .ok { Service := rev.Status.ServiceName ++ "." ++ c.elaNamespaceName ns,
              Weight := tt.Percent }) ∧
    ∀ s : String,
      getRouteForTrafficTarget c { tt with Revision := s } ns =
        getRouteForTrafficTarget c tt ns := by
  have hres : resolveRevisionName c tt ns = .ok rt.Status.Latest := by
    unfold resolveRevisionName
    rw [if_pos htpl, hget]
  refine ⟨hres, ?_, ?_⟩
  · unfold getRouteForTrafficTarget
    rw [hres]
  · intro s
    have h1 : resolveRevisionName c { tt with Revision := s } ns =
        resolveRevisionName c tt ns := by
      unfold resolveRevisionName
      rw [if_pos htpl, if_pos htpl]
    unfold getRouteForTrafficTarget
    rw [h1]

/-- C5: with a fresh route set computed, `createOrUpdateRoutes` performs a
full replace when the route-rule object is found — the single write is an
update of the fetched object with its entire `Spec` replaced by the freshly
computed one and everything else left as fetched — and, when the Get reports
not-found, the single write is a create of a brand-new object. -/
theorem C5_routeRule_full_replace_or_create (c : ClusterEnv) (u : ElaService)
    (ns : String) (routes : List RevisionRoute)
    (hnil : c.routeRulesClientIsNil = false)
    (hroutes : getRoutes c u = .ok routes) (hne : routes ≠ []) :
    (∀ r : RouteRule, c.getRouteRule ns (c.GetElaIstioRouteRuleName u) = .ok r →
      (createOrUpdateRoutes c u ns).2 =
        [Effect.updateRouteRule ns { r with Spec := c.MakeElaServiceIstioSpec u ns routes }]) ∧
    (c.getRouteRule ns (c.GetElaIstioRouteRuleName u) = .error ApiError.notFound →
      (createOrUpdateRoutes c u ns).2 =
        [Effect.createRouteRule ns (c.MakeElaServiceIstioRoutes u ns routes)]) := by
  have hlen : ¬ routes.length = 0 := by
    simpa [List.length_eq_zero] using hne
  constructor
  · intro r hget
    unfold createOrUpdateRoutes
    rw [hnil]
    simp only [Bool.false_eq_true, if_false, hroutes, hlen, if_false, hget]
    split <;> rfl
  · intro hget
    unfold createOrUpdateRoutes
    rw [hnil]
    simp only [Bool.false_eq_true, if_false, hroutes, hlen, if_false, hget,
      ApiError.isNotFound, if_true]
    split <;> rfl

/-- C5 witness: in the scenario environment the existing rule `meta0` is
updated with its spec fully replaced, and in the base environment (rule
absent) a fresh rule is created. -/
theorem C5_witness :
    (createOrUpdateRoutes scnEnv svcA "default").2 =
      [Effect.updateRouteRule "default" { Metadata := "meta0", Spec := "fresh-spec" }] :=
  (C5_routeRule_full_replace_or_create scnEnv svcA "default"
      [⟨"rev-1-svc.default", 90⟩, ⟨"rev-2-svc.default", 10⟩] rfl rfl (by simp)).1
    ⟨"meta0", "old-spec"⟩ rfl

/-- C6: a not-found answer from the ElaService lister makes the sync
handler log and return success with no cluster writes (the key is then
Forgotten, not retried), while any other lookup error is returned as a
failure. -/
theorem C6_deleted_resource_is_success (c : ClusterEnv) (key ns name : String)
    (hsplit : splitMetaNamespaceKey key = .ok (ns, name)) :
    (c.getElaService ns name = .error ApiError.notFound →
      syncHandler c key = (.ok (), [])) ∧
    (∀ e, c.getElaService ns name = .error e → e ≠ ApiError.notFound →
      syncHandler c key = (.error e, [])) := by
  constructor
  · intro h
    unfold syncHandler
    simp only [hsplit, h, ApiError.isNotFound, if_true]
  · intro e h hne
    unfold syncHandler
    simp only [hsplit, h]
    have : e.isNotFound = false := by
      cases e with
      | notFound => exact absurd rfl hne
      | alreadyExists => rfl
      | other m => rfl
    rw [this]
    simp

/-- C6 witness: with `svc-a` already deleted the handler succeeds without
writes, and a transient lookup error is propagated. -/
theorem C6_witness :
    syncHandler baseEnv "default/gone" = (.ok (), []) ∧
    syncHandler transientLookupEnv "default/gone" = (.error (.other "boom"), []) :=
  ⟨(C6_deleted_resource_is_success baseEnv "default/gone" "default" "gone" rfl).1 rfl,
   (C6_deleted_resource_is_success transientLookupEnv "default/gone" "default" "gone" rfl).2
     (.other "boom") rfl (by simp)⟩

/-- C8: when the resolved route list is empty, `createOrUpdateRoutes`
returns success and performs no create and no update of the route rule. -/
theorem C8_empty_routes_skip (c : ClusterEnv) (u : ElaService) (ns : String)
    (hnil : c.routeRulesClientIsNil = false)
    (hempty : getRoutes c u = .ok []) :
    createOrUpdateRoutes c u ns = (.ok (), []) := by
  unfold createOrUpdateRoutes
  rw [hnil]
  simp only [Bool.false_eq_true, if_false, hempty, List.length_nil, if_true]

/-- C8 witness: a resource with an empty traffic list resolves to an empty
route list and the cycle writes nothing. -/
theorem C8_witness :
    createOrUpdateRoutes baseEnv
      { Name := "svc-empty", Namespace := "default",
        Spec := { Rollout := { Traffic := [] } } } "default" = (.ok (), []) :=
  C8_empty_routes_skip baseEnv
    { Name := "svc-empty", Namespace := "default",
      Spec := { Rollout := { Traffic := [] } } } "default" rfl rfl

theorem ApiError.isAlreadyExists_eq_false {e : ApiError} (h : e ≠ .alreadyExists) :
    e.isAlreadyExists = false := by
  cases e with
  | notFound => rfl
  | alreadyExists => exact absurd rfl h
  | other m => rfl

theorem ApiError.isNotFound_eq_false {e : ApiError} (h : e ≠ .notFound) :
    e.isNotFound = false := by
  cases e with
  | notFound => exact absurd rfl h
  | alreadyExists => rfl
  | other m => rfl

theorem createPlaceholderService_effects (c : ClusterEnv) (u : ElaService) (ns : String) :
    (createPlaceholderService c u ns).2 =
      [Effect.createService ns (placeholderServiceFor c u)] := by
  simp only [createPlaceholderService]
  cases h : c.createService ns (placeholderServiceFor c u) with
  | error e =>
    by_cases he : e.isAlreadyExists = true
    · simp [he]
    · simp [he]
  | ok v => simp

theorem createOrUpdateIngress_effects (c : ClusterEnv) (es : ElaService) (ns : String) :
    (createOrUpdateIngress c es ns).2 = [] ∨
    (createOrUpdateIngress c es ns).2 = [Effect.createIngress ns (ingressFor c es ns)] := by
  simp only [createOrUpdateIngress]
  cases h : c.getIngress ns (c.GetElaK8SIngressName es) with
  | error e =>
    by_cases hnf : e.isNotFound = true
    · cases hc : c.createIngress ns (ingressFor c es ns) with
      | error ce =>
        right
        simp [hnf]
      | ok v =>
        right
        simp [hnf]
    · left
      simp [hnf]
  | ok v =>
    left
    simp

theorem createOrUpdateRoutes_effects (c : ClusterEnv) (u : ElaService) (ns : String) :
    ∀ e ∈ (createOrUpdateRoutes c u ns).2,
      (∃ rr, e = Effect.createRouteRule ns rr) ∨
      (∃ rr, e = Effect.updateRouteRule ns rr) := by
  intro e he
  simp only [createOrUpdateRoutes] at he
  split at he
  · simp at he
  · split at he
    · simp at he
    · split at he
      · simp at he
      · split at he
        · split at he
          · split at he
            · simp at he
              exact Or.inl ⟨_, he⟩
            · simp at he
              exact Or.inl ⟨_, he⟩
          · simp at he
        · split at he
          · simp at he
            exact Or.inr ⟨_, he⟩
          · simp at he
            exact Or.inr ⟨_, he⟩

theorem syncRoutesStep_effects (c : ClusterEnv) (es : ElaService) (ns : String)
    (acc : List Effect) :
    ∀ e ∈ (syncRoutesStep c es ns acc).2,
      e ∈ acc ∨ e ∈ (createOrUpdateRoutes c es ns).2 ∨
        e = Effect.recordEvent SuccessSynced MessageResourceSynced := by
  intro e he
  simp only [syncRoutesStep] at he
  split at he
  · rcases List.mem_append.mp he with h | h
    · exact Or.inl h
    · exact Or.inr (Or.inl h)
  · rcases List.mem_append.mp he with h | h
    · rcases List.mem_append.mp h with h1 | h1
      · exact Or.inl h1
      · exact Or.inr (Or.inl h1)
    · rw [List.mem_singleton] at h
      exact Or.inr (Or.inr h)

theorem syncHandler_effects (c : ClusterEnv) (key : String) :
    ∀ e ∈ (syncHandler c key).2,
      (∃ ns svc, e = Effect.createService ns svc) ∨
      (∃ ns ing, e = Effect.createIngress ns ing) ∨
      (∃ ns rr, e = Effect.createRouteRule ns rr) ∨
      (∃ ns rr, e = Effect.updateRouteRule ns rr) ∨
      (∃ r m, e = Effect.recordEvent r m) := by
  intro e he
  have hplace : ∀ ns u, e ∈ (createPlaceholderService c u ns).2 →
      (∃ ns2 svc, e = Effect.createService ns2 svc) := by
    intro ns u hmem
    rw [createPlaceholderService_effects] at hmem
    rw [List.mem_singleton] at hmem
    exact ⟨ns, placeholderServiceFor c u, hmem⟩
  have hingr : ∀ ns u, e ∈ (createOrUpdateIngress c u ns).2 →
      (∃ ns2 ing, e = Effect.createIngress ns2 ing) := by
    intro ns u hmem
    rcases createOrUpdateIngress_effects c u ns with hh | hh
    · rw [hh] at hmem
      simp at hmem
    · rw [hh] at hmem
      rw [List.mem_singleton] at hmem
      exact ⟨ns, ingressFor c u ns, hmem⟩
  simp only [syncHandler] at he
  split at he
  · simp at he
  · split at he
    · split at he <;> simp at he
    · next es =>
      split at he
      · exact Or.inl (hplace _ _ he)
      · split at he
        · split at he
          · rcases syncRoutesStep_effects _ _ _ _ e he with h | h | h
            · rcases List.mem_append.mp h with h1 | h1
              · exact Or.inl (hplace _ _ h1)
              · exact Or.inr (Or.inl (hingr _ _ h1))
            · rcases createOrUpdateRoutes_effects _ _ _ e h with ⟨rr, hrr⟩ | ⟨rr, hrr⟩
              · exact Or.inr (Or.inr (Or.inl ⟨_, rr, hrr⟩))
              · exact Or.inr (Or.inr (Or.inr (Or.inl ⟨_, rr, hrr⟩)))
            · exact Or.inr (Or.inr (Or.inr (Or.inr ⟨_, _, h⟩)))
          · rcases List.mem_append.mp he with h1 | h1
            · exact Or.inl (hplace _ _ h1)
            · exact Or.inr (Or.inl (hingr _ _ h1))
        · rcases syncRoutesStep_effects _ _ _ _ e he with h | h | h
          · rcases List.mem_append.mp h with h1 | h1
            · exact Or.inl (hplace _ _ h1)
            · exact Or.inr (Or.inl (hingr _ _ h1))
          · rcases createOrUpdateRoutes_effects _ _ _ e h with ⟨rr, hrr⟩ | ⟨rr, hrr⟩
            · exact Or.inr (Or.inr (Or.inl ⟨_, rr, hrr⟩))
            · exact Or.inr (Or.inr (Or.inr (Or.inl ⟨_, rr, hrr⟩)))
          · exact Or.inr (Or.inr (Or.inr (Or.inr ⟨_, _, h⟩)))

theorem syncHandler_no_overwrite_no_delete (c : ClusterEnv) (key : String) :
    ∀ e ∈ (syncHandler c key).2,
      e.isDeleteOp = false ∧ e.isServiceOrIngressUpdate = false := by
  intro e he
  rcases syncHandler_effects c key e he with
    ⟨n, s, h⟩ | ⟨n, s, h⟩ | ⟨n, s, h⟩ | ⟨n, s, h⟩ | ⟨n, s, h⟩ <;>
    rw [h] <;> exact ⟨rfl, rfl⟩

/-- C2 counterexample: a subsequent reconciliation of `svc-a` with all
three sub-resources already in place succeeds while issuing no write at all
to the ingress and no in-place update of the placeholder service or the
ingress — so the claim that each of the three derived sub-resources is
updated in place on every subsequent reconciliation is false on the code. -/
theorem C2_counterexample_no_ingress_or_service_update :
    (syncHandler scnEnv "default/svc-a").1 = .ok () ∧
    (syncHandler scnEnv "default/svc-a").2.all
      (fun e => !e.isIngressWrite && !e.isServiceOrIngressUpdate) = true :=
  ⟨rfl, rfl⟩

/-- C2 (amended): each sub-resource is created when missing and none is
ever deleted or overwritten in place except the route rule — every sync
effect avoids deletes and service/ingress updates, a missing ingress is
created, and the found route rule is the one object updated in place. -/
theorem C2_amended_create_once_update_routes_only (c : ClusterEnv)
    (u : ElaService) (ns key : String) (r : RouteRule) (routes : List RevisionRoute)
    (hnil : c.routeRulesClientIsNil = false)
    (hroutes : getRoutes c u = .ok routes) (hne : routes ≠ [])
    (hget : c.getRouteRule ns (c.GetElaIstioRouteRuleName u) = .ok r) :
    (∀ e ∈ (syncHandler c key).2,
      e.isDeleteOp = false ∧ e.isServiceOrIngressUpdate = false) ∧
    (c.getIngress ns (c.GetElaK8SIngressName u) = .error ApiError.notFound →
      (createOrUpdateIngress c u ns).2 =
        [Effect.createIngress ns (ingressFor c u ns)]) ∧
    (createOrUpdateRoutes c u ns).2 =
      [Effect.updateRouteRule ns
        { r with Spec := c.MakeElaServiceIstioSpec u ns routes }] := by
  have hlen : ¬ routes.length = 0 := by
    simpa [List.length_eq_zero] using hne
  refine ⟨syncHandler_no_overwrite_no_delete c key, ?_, ?_⟩
  · intro hig
    simp only [createOrUpdateIngress, hig, ApiError.isNotFound, if_true]
    split <;> rfl
  · unfold createOrUpdateRoutes
    rw [hnil]
    simp only [Bool.false_eq_true, if_false, hroutes, hlen, if_false, hget]
    split <;> rfl

/-- C2 witness: with the ingress missing and the route rule present, the
amended claim applies — the ingress is created and the route rule updated
in place with its spec replaced. -/
theorem C2_witness :
    (createOrUpdateIngress ingressRaceEnv svcA "default").2 =
      [Effect.createIngress "default" (ingressFor ingressRaceEnv svcA "default")] ∧
    (createOrUpdateRoutes ingressRaceEnv svcA "default").2 =
      [Effect.updateRouteRule "default" { Metadata := "meta0", Spec := "fresh-spec" }] := by
  have h := C2_amended_create_once_update_routes_only ingressRaceEnv svcA "default"
    "default/svc-a" ⟨"meta0", "old-spec"⟩
    [⟨"rev-1-svc.default", 90⟩, ⟨"rev-2-svc.default", 10⟩] rfl rfl (by simp) rfl
  exact ⟨h.2.1 rfl, h.2.2⟩

/-- C7: an already-exists error from creating the placeholder service or
the ingress is treated as success by the sync handler — the sync is not
aborted, it ends successfully when the remaining steps succeed (so the
worker Forgets the key: no retry) — while any creation error other than
already-exists aborts the sync attempt with that error. -/
theorem C7_already_exists_tolerated (c : ClusterEnv) (key ns name : String)
    (u : ElaService)
    (hsplit : splitMetaNamespaceKey key = .ok (ns, name))
    (hes : c.getElaService ns name = .ok u) :
    (c.createService ns (placeholderServiceFor c u) = .error .alreadyExists →
      (createPlaceholderService c u ns).1 = .ok ()) ∧
    ((createPlaceholderService c u ns).1 = .ok () →
      c.getIngress ns (c.GetElaK8SIngressName u) = .error .notFound →
      c.createIngress ns (ingressFor c u ns) = .error .alreadyExists →
      (createOrUpdateRoutes c u ns).1 = .ok () →
      (syncHandler c key).1 = .ok () ∧
      processNextWorkItem c (QItem.str key) false =
        (true, [QueueOp.Forget (QItem.str key), QueueOp.Done (QItem.str key)],
          (syncHandler c key).2)) ∧
    (∀ e, e ≠ ApiError.alreadyExists →
      c.createService ns (placeholderServiceFor c u) = .error e →
      (syncHandler c key).1 = .error e) ∧
    (∀ e, e ≠ ApiError.alreadyExists →
      (createPlaceholderService c u ns).1 = .ok () →
      c.getIngress ns (c.GetElaK8SIngressName u) = .error .notFound →
      c.createIngress ns (ingressFor c u ns) = .error e →
      (syncHandler c key).1 = .error e) := by
  refine ⟨?_, ?_, ?_, ?_⟩
  · intro h
    simp [createPlaceholderService, h, ApiError.isAlreadyExists]
  · intro hps hig hic hroutes
    have hing1 : (createOrUpdateIngress c u ns).1 = .error .alreadyExists := by
      simp [createOrUpdateIngress, hig, hic, ApiError.isNotFound]
    have hsync : syncHandler c key = syncRoutesStep c u ns
        ((createPlaceholderService c u ns).2 ++ (createOrUpdateIngress c u ns).2) := by
      unfold syncHandler
      simp only [hsplit, hes, hps, hing1, ApiError.isAlreadyExists, if_true]
    have hok : (syncHandler c key).1 = .ok () := by
      rw [hsync]
      unfold syncRoutesStep
      simp only [hroutes]
    refine ⟨hok, ?_⟩
    simp [processNextWorkItem, hok]
  · intro e hne h
    have hps : (createPlaceholderService c u ns).1 = .error e := by
      simp [createPlaceholderService, h, ApiError.isAlreadyExists_eq_false hne]
    unfold syncHandler
    simp only [hsplit, hes, hps]
  · intro e hne hps hig hic
    have hing1 : (createOrUpdateIngress c u ns).1 = .error e := by
      simp [createOrUpdateIngress, hig, hic, ApiError.isNotFound]
    unfold syncHandler
    simp only [hsplit, hes, hps, hing1, ApiError.isAlreadyExists_eq_false hne,
      Bool.false_eq_true, if_false]

/-- C7 witness: the already-exists placeholder create is success; with a
racing ingress create the whole sync still succeeds; transient create
failures of either sub-resource abort the sync with that error. -/
theorem C7_witness :
    (createPlaceholderService scnEnv svcA "default").1 = .ok () ∧
    (syncHandler ingressRaceEnv "default/svc-a").1 = .ok () ∧
    (syncHandler svcCreateFailEnv "default/svc-a").1 = .error (.other "boom") ∧
    (syncHandler ingressCreateFailEnv "default/svc-a").1 = .error (.other "boom") := by
  have h1 := C7_already_exists_tolerated scnEnv "default/svc-a" "default" "svc-a" svcA rfl rfl
  have h2 := C7_already_exists_tolerated ingressRaceEnv "default/svc-a" "default" "svc-a"
    svcA rfl rfl
  have h3 := C7_already_exists_tolerated svcCreateFailEnv "default/svc-a" "default" "svc-a"
    svcA rfl rfl
  have h4 := C7_already_exists_tolerated ingressCreateFailEnv "default/svc-a" "default"
    "svc-a" svcA rfl rfl
  refine ⟨h1.1 rfl, (h2.2.1 rfl rfl rfl rfl).1, ?_, ?_⟩
  · exact h3.2.2.1 (.other "boom") (by simp) rfl
  · exact h4.2.2.2 (.other "boom") (by simp) rfl rfl rfl

/-- C1: contrary to the claim (and to the in-code comment that on a
transient error the item is put back on the workqueue and attempted again
after a back-off period), `processNextWorkItem` never calls AddRateLimited:
at a key whose sync fails, the worker only marks the item Done, dropping it
from the queue entirely — while on success it Forgets the key, exactly as
claimed. -/
theorem C1_failed_item_dropped_not_requeued :
    processNextWorkItem transientLookupEnv (QItem.str "default/svc-a") false =
      (true, [QueueOp.Done (QItem.str "default/svc-a")], []) ∧
    (QueueOp.AddRateLimited (QItem.str "default/svc-a") ∉
      (processNextWorkItem transientLookupEnv (QItem.str "default/svc-a") false).2.1) ∧
    processNextWorkItem scnEnv (QItem.str "default/svc-a") false =
      (true, [QueueOp.Forget (QItem.str "default/svc-a"),
              QueueOp.Done (QItem.str "default/svc-a")],
        (syncHandler scnEnv "default/svc-a").2) :=
  ⟨rfl, by decide, rfl⟩

/-- C9: in any reachable queue state no key is in flight at two workers
(the in-flight list has no duplicates), and when a key in flight with no
pending re-delivery is added twice in rapid succession, completing the
current attempt re-delivers it exactly once: one pending entry, no longer
in flight. -/
theorem C9_dedup_single_redelivery (q : WorkQueue) (k : String)
    (hr : q.Reachable) (hp : k ∈ q.processing) (hd : k ∉ q.dirty) :
    q.processing.Nodup ∧
    (((q.add k).add k).done k).queue.count k = 1 ∧
    k ∉ (((q.add k).add k).done k).processing := by
  have hinv := WorkQueue.inv_of_reachable hr
  have hkq : k ∉ q.queue := fun hkq => hd (hinv.queue_dirty k hkq)
  have h1 : q.add k = { q with dirty := q.dirty ++ [k] } := by
    unfold WorkQueue.add
    rw [if_neg hd, if_pos hp]
  have h2 : (q.add k).add k = q.add k := by
    rw [h1]
    unfold WorkQueue.add
    rw [if_pos (by simp : k ∈ q.dirty ++ [k])]
  have h3 : ((q.add k).add k).done k =
      { q with dirty := q.dirty ++ [k], queue := q.queue ++ [k],
               processing := q.processing.erase k } := by
    rw [h2, h1]
    unfold WorkQueue.done
    rw [if_pos (by simp : k ∈ q.dirty ++ [k])]
  refine ⟨hinv.processing_nodup, ?_, ?_⟩
  · rw [h3]
    simp [List.count_append, List.count_eq_zero_of_not_mem hkq]
  · rw [h3]
    intro hmem
    exact ((hinv.processing_nodup.mem_erase_iff).mp hmem).1 rfl

/-- C9 witness: from the empty queue, add key a and hand it to a worker;
in that reachable state the theorem applies with two rapid re-adds of a. -/
theorem C9_witness :
    q0.processing.Nodup ∧
    (((q0.add "a").add "a").done "a").queue.count "a" = 1 ∧
    "a" ∉ (((q0.add "a").add "a").done "a").processing := by
  have hreach : q0.Reachable :=
    Relation.ReflTransGen.tail
      (Relation.ReflTransGen.single (WorkQueue.Step.add WorkQueue.empty "a"))
      (WorkQueue.Step.getItem (WorkQueue.empty.add "a") q0 "a" rfl)
  exact C9_dedup_single_redelivery q0 "a" hreach (by decide) (by decide)

/-- C4 witness: with the fetch of rev-2 failing, the whole route set fails
to resolve and no partial list is produced. -/
theorem C4_witness :
    getRoutes partialRevEnv svcA = .error (.other "boom") ∧
    (∃ e, getRoutes partialRevEnv svcA = .error e) ∧
    (∀ rs, getRoutes partialRevEnv svcA ≠ .ok rs) := by
  have h := C4_single_target_failure_aborts partialRevEnv svcA ⟨"rev-2", "", 10⟩
    (.other "boom") (by decide) rfl
  exact ⟨rfl, h.1, h.2.1⟩

/-- C10 witness: a target carrying both a (nonexistent) direct revision
reference and a template reference resolves through the template to rev-1. -/
theorem C10_witness :
    resolveRevisionName tplEnv ⟨"rev-ignored", "tpl-1", 50⟩ "default" = .ok "rev-1" ∧
    getRouteForTrafficTarget tplEnv ⟨"rev-ignored", "tpl-1", 50⟩ "default" =
      .ok ⟨"rev-1-svc.default", 50⟩ := by
  have h := C10_template_overrides_revision tplEnv ⟨"rev-ignored", "tpl-1", 50⟩ "default"
    ⟨⟨"rev-1"⟩⟩ (by decide) (by decide) rfl
  exact ⟨h.1, rfl⟩

end Elafros
